import Mathlib

/-!
Verification development for the markdown-to-docx conversion service.

This file gives a shallow embedding of the two core components of the
service — the markdown content classifier (`isMarkdownContent`) and the
HTML-to-document-structure transformer (`htmlToGoogleDocsStructure`) —
together with an abstract model of the batch conversion loop, and proves
properties of them.

The classifier is a direct translation of the ten JavaScript regular
expressions tested by `isMarkdownContent`; each regex is rendered as an
executable matcher over `List Char` that mirrors the backtracking
semantics of the original pattern.  The transformer is a translation of
`htmlToGoogleDocsStructure` / `walkDOM` / `processElement` / `addText`
from the multi-route server source, operating on an explicit HTML node
tree (the external HTML parser is a collaborator and is not modelled).
-/

namespace MarkdownToDocx

/-- JavaScript `\s` character class (WhiteSpace plus LineTerminator). -/
def isJsSpace (c : Char) : Bool :=
  c == ' ' || c == '\t' || c == '\n' || c == '\r' ||
  c.val == 11 || c.val == 12 || c.val == 0xa0 || c.val == 0x1680 ||
  (0x2000 ≤ c.val && c.val ≤ 0x200a) ||
  c.val == 0x2028 || c.val == 0x2029 ||
  c.val == 0x202f || c.val == 0x205f || c.val == 0x3000 || c.val == 0xfeff

/-- JavaScript LineTerminator characters: those that `.` does not match and
that the `m` flag treats as line boundaries. -/
def isLineTerm (c : Char) : Bool :=
  c == '\n' || c == '\r' || c.val == 0x2028 || c.val == 0x2029

/-- A character matched by the regex metacharacter `.` (anything that is not
a line terminator). -/
def isRegexDot (c : Char) : Bool := !isLineTerm c

/-- The backtick character (used by the code-block and inline-code regexes). -/
def backtick : Char := Char.ofNat 96

/-- Does `pat` match starting at some position of `s`?  This models an
unanchored regex test: the engine tries every start position. -/
def anyPos (pat : List Char → Bool) (s : List Char) : Bool :=
  s.tails.any pat

/-- Does `pat` match immediately after some line-terminator character of
`s`?  Together with testing `pat` at the very start this models `^` under
the JavaScript `m` flag. -/
def afterTermPos (pat : List Char → Bool) : List Char → Bool
  | [] => false
  | c :: rest => (isLineTerm c && pat rest) || afterTermPos pat rest

/-- Does `pat` match at the start of some line of `s` (start of string or
right after a line terminator)?  Models `^pat` with the `m` flag. -/
def anyLineStart (pat : List Char → Bool) (s : List Char) : Bool :=
  pat s || afterTermPos pat s

/-- Prefix shape of `/#\s.+/`: a `#`, a whitespace character, then at least
one character matched by `.`. -/
def headAt : List Char → Bool
  | '#' :: w :: d :: _ => isJsSpace w && isRegexDot d
  | _ => false

/-- The `headers` signal: regex `/#\s.+/m` — note it is NOT anchored at a
line start, the `#` may occur mid-line ("more lenient" in the source). -/
def headersMatch (s : String) : Bool := anyPos headAt s.data

/-- Prefix shape of `/[-*+]\s.+/`. -/
def bulletAt : List Char → Bool
  | b :: w :: d :: _ => (b == '-' || b == '*' || b == '+') && isJsSpace w && isRegexDot d
  | _ => false

/-- The `lists` signal: regex `/^[-*+]\s.+/m` (unordered lists). -/
def listsMatch (s : String) : Bool := anyLineStart bulletAt s.data

/-- Prefix shape of `/\d+\.\s.+/`: one or more digits, a dot, a whitespace
character, then at least one character matched by `.`. -/
def numberedAt (l : List Char) : Bool :=
  !(l.takeWhile Char.isDigit).isEmpty &&
    (match l.drop (l.takeWhile Char.isDigit).length with
     | '.' :: w :: d :: _ => isJsSpace w && isRegexDot d
     | _ => false)

/-- The `numberedLists` signal: regex `/^\d+\.\s.+/m`. -/
def numberedListsMatch (s : String) : Bool := anyLineStart numberedAt s.data

/-- Three backticks at the head of the list. -/
def tripleTickAt : List Char → Bool
  | a :: b :: c :: _ => a == backtick && b == backtick && c == backtick
  | _ => false

/-- The `codeBlocks` signal: regex `/```[\s\S]*?```/` — a triple backtick
followed (arbitrarily far, across newlines) by another triple backtick. -/
def codeBlocksMatch (s : String) : Bool :=
  anyPos (fun l => tripleTickAt l && anyPos tripleTickAt (l.drop 3)) s.data

/-- Prefix shape of `` /`[^`]+`/ ``: a backtick, one non-backtick character,
then a closing backtick further on (the first backtick after the opening one
closes the span; everything before it is `[^`]`, which may include
newlines). -/
def inlineAt : List Char → Bool
  | a :: c :: rest => a == backtick && c != backtick && rest.contains backtick
  | _ => false

/-- The `inlineCode` signal: regex `` /`[^`]+`/ ``. -/
def inlineCodeMatch (s : String) : Bool := anyPos inlineAt s.data

/-- The `emphasis` signal: regex `/(\*\*|\*|__|_)/` — equivalent to
containing a `*` or a `_` anywhere. -/
def emphasisMatch (s : String) : Bool := s.data.contains '*' || s.data.contains '_'

/-- Scan for a closing `)` through characters matched by `.`. -/
def seekParen : List Char → Bool
  | [] => false
  | c :: rest => c == ')' || (isRegexDot c && seekParen rest)

/-- After the `]`: an immediate `(`, at least one `.`-character, then a
closing `)` reachable through `.`-characters. -/
def parenPart : List Char → Bool
  | '(' :: d :: rest => isRegexDot d && seekParen rest
  | _ => false

/-- Scan for a `]` (through `.`-characters) whose continuation `(...)` also
matches; backtracking over candidate `]` positions is the `||`. -/
def seekBracket : List Char → Bool
  | [] => false
  | c :: rest => (c == ']' && parenPart rest) || (isRegexDot c && seekBracket rest)

/-- Prefix shape of `/\[.+?\]\(.+?\)/`. -/
def linkAt : List Char → Bool
  | '[' :: c :: rest => isRegexDot c && seekBracket rest
  | _ => false

/-- The `links` signal: regex `/\[.+?\]\(.+?\)/`. -/
def linksMatch (s : String) : Bool := anyPos linkAt s.data

/-- Prefix shape of `/>\s.+/`. -/
def quoteAt : List Char → Bool
  | '>' :: w :: d :: _ => isJsSpace w && isRegexDot d
  | _ => false

/-- The `blockquotes` signal: regex `/^>\s.+/m`. -/
def blockquotesMatch (s : String) : Bool := anyLineStart quoteAt s.data

/-- Scan for a closing `|` through characters matched by `.`. -/
def seekPipe : List Char → Bool
  | [] => false
  | c :: rest => c == '|' || (isRegexDot c && seekPipe rest)

/-- Prefix shape of `/\|.+\|/`: a pipe, at least one `.`-character, then
another pipe reachable through `.`-characters. -/
def tableAt : List Char → Bool
  | '|' :: c :: rest => isRegexDot c && seekPipe rest
  | _ => false

/-- The `tables` signal: regex `/\|.+\|/`. -/
def tablesMatch (s : String) : Bool := anyPos tableAt s.data

/-- A horizontal-rule character: `-`, `*` or `_`. -/
def isHrChar (c : Char) : Bool := c == '-' || c == '*' || c == '_'

/-- Line shape of `/^[-*_]{3,}$/`: at least three rule characters from the
line start, immediately followed by the end of the string or a line
terminator (`$` with the `m` flag). -/
def hrAt (l : List Char) : Bool :=
  decide (3 ≤ (l.takeWhile isHrChar).length) &&
    (match l.drop (l.takeWhile isHrChar).length with
     | [] => true
     | c :: _ => isLineTerm c)

/-- The `horizontalRules` signal: regex `/^[-*_]{3,}$/m`. -/
def horizontalRulesMatch (s : String) : Bool := anyLineStart hrAt s.data

/-- The ten signals in the order the source object `markdownPatterns` lists
them: headers, lists, numberedLists, codeBlocks, inlineCode, emphasis,
links, blockquotes, tables, horizontalRules. -/
def signalList (s : String) : List Bool :=
  [headersMatch s, listsMatch s, numberedListsMatch s, codeBlocksMatch s,
   inlineCodeMatch s, emphasisMatch s, linksMatch s, blockquotesMatch s,
   tablesMatch s, horizontalRulesMatch s]

/-- `matchedPatterns.length` in the source: the number of signal categories
that match the text. -/
def matchedCount (s : String) : Nat := ((signalList s).filter id).length

/-- `hasImportantPatterns` in the source: headers, (unordered) lists, or
emphasis. -/
def hasImportant (s : String) : Bool :=
  headersMatch s || listsMatch s || emphasisMatch s

/-- `isMarkdownContent`: true when at least two signal categories match, or
when one of the three "important" signals matches. -/
def isMarkdownContent (s : String) : Bool :=
  decide (2 ≤ matchedCount s) || hasImportant s

/-! ## The structure transformer

Translation of `htmlToGoogleDocsStructure` from the multi-route server
source: `addText`, `processElement`, `walkDOM`.  The external HTML parser
is a collaborator, so the transformer is modelled on an already-parsed
node tree. -/

/-- A parsed DOM node: an element with a (upper-case, as xmldom reports
HTML) tag name and child nodes, or a text node. -/
inductive HtmlNode where
  | element (tagName : String) (childNodes : List HtmlNode)
  | text (content : String)
deriving Repr

/-- `nodeType === 1` in the source. -/
def isElem : HtmlNode → Bool
  | .element _ _ => true
  | .text _ => false

/-- The tag name of an element node (text nodes have none). -/
def tagOf : HtmlNode → String
  | .element t _ => t
  | .text _ => ""

/-- The child node list (text nodes have none). -/
def childNodesOf : HtmlNode → List HtmlNode
  | .element _ cs => cs
  | .text _ => []

mutual

/-- DOM `textContent`: concatenation of all text-node data in the
subtree. -/
def textContent : HtmlNode → String
  | .text s => s
  | .element _ cs => textContentList cs

/-- `textContent` of a list of sibling nodes, in order. -/
def textContentList : List HtmlNode → String
  | [] => ""
  | n :: ns => textContent n ++ textContentList ns

end

/-- The paragraph-style object passed to `updateParagraphStyle`, with the
fields the source actually sets; magnitudes are in PT. -/
structure PStyle where
  namedStyleType : String
  spaceAbove : Option Nat := none
  spaceBelow : Option Nat := none
  indentStart : Option Nat := none
  hasBackgroundColor : Bool := false
  hasBorderLeft : Bool := false
deriving DecidableEq, Repr

/-- Style for `H1`: HEADING_1, space above 20, below 10. -/
def h1Style : PStyle := { namedStyleType := "HEADING_1", spaceAbove := some 20, spaceBelow := some 10 }

/-- Style for `H2`: HEADING_2, space above 16, below 8. -/
def h2Style : PStyle := { namedStyleType := "HEADING_2", spaceAbove := some 16, spaceBelow := some 8 }

/-- Style for `P`: NORMAL_TEXT, space above/below 8. -/
def normalPStyle : PStyle := { namedStyleType := "NORMAL_TEXT", spaceAbove := some 8, spaceBelow := some 8 }

/-- Style for `PRE`: NORMAL_TEXT with shaded background, space 12/12. -/
def preStyle : PStyle :=
  { namedStyleType := "NORMAL_TEXT", spaceAbove := some 12, spaceBelow := some 12,
    hasBackgroundColor := true }

/-- Style for list items: NORMAL_TEXT, indent 36, space 4/4. -/
def listItemStyle : PStyle :=
  { namedStyleType := "NORMAL_TEXT", indentStart := some 36,
    spaceAbove := some 4, spaceBelow := some 4 }

/-- Style for `BLOCKQUOTE`: NORMAL_TEXT, indent 48, space 12/12, left
border accent. -/
def blockquoteStyle : PStyle :=
  { namedStyleType := "NORMAL_TEXT", indentStart := some 48,
    spaceAbove := some 12, spaceBelow := some 12, hasBorderLeft := true }

/-- One structural edit operation pushed onto `requests`. -/
inductive Request where
  | insertText (index : Nat) (text : String)
  | updateParagraphStyle (startIndex endIndex : Nat) (paragraphStyle : PStyle)
deriving DecidableEq, Repr

/-- The transformer's mutable state: the `requests` array and
`currentIndex` cursor. -/
structure TransState where
  requests : List Request
  currentIndex : Nat
deriving DecidableEq, Repr

/-- `!text.trim()` in the source: the text is empty after trimming, i.e.
every character is whitespace. -/
def isBlank (s : String) : Bool := s.data.all isJsSpace

/-- `addText(text, style)`: skip blank text; otherwise push an
`insertText` of `text + "\n"` at the cursor, push an
`updateParagraphStyle` over `[cursor, cursor + text.length)` when a style
object is given, and advance the cursor by `text.length + 1`. -/
def addText (st : TransState) (text : String) (style : Option PStyle) : TransState :=
  if isBlank text then st
  else
    { requests := st.requests ++ [Request.insertText st.currentIndex (text ++ "\n")] ++
        (match style with
         | some ps => [Request.updateParagraphStyle st.currentIndex (st.currentIndex + text.length) ps]
         | none => [])
      currentIndex := st.currentIndex + text.length + 1 }

/-- The `UL`/`OL` branch: iterate the element children (`element.children`)
with their 0-based position `idx`; the text is label-prefixed — a bullet
glyph for `UL`, the 1-based ordinal plus a dot for `OL`. -/
def processItems (isUl : Bool) : List HtmlNode → Nat → TransState → TransState
  | [], _, st => st
  | li :: rest, idx, st =>
    let label := if isUl then "• " else toString (idx + 1) ++ ". "
    processItems isUl rest (idx + 1) (addText st (label ++ textContent li) (some listItemStyle))

/-- `processElement`: dispatch on the tag name; the switch has cases only
for H1, H2, P, PRE, UL/OL and BLOCKQUOTE — any other tag falls through and
emits nothing. -/
def processElement (el : HtmlNode) (st : TransState) : TransState :=
  match el with
  | .text _ => st
  | .element tag cs =>
    if tag == "H1" then addText st (textContentList cs) (some h1Style)
    else if tag == "H2" then addText st (textContentList cs) (some h2Style)
    else if tag == "P" then addText st (textContentList cs) (some normalPStyle)
    else if tag == "PRE" then addText st (textContentList cs) (some preStyle)
    else if tag == "UL" || tag == "OL" then
      processItems (tag == "UL") (cs.filter isElem) 0 st
    else if tag == "BLOCKQUOTE" then addText st (textContentList cs) (some blockquoteStyle)
    else st

mutual

/-- `walkDOM`: process the node if it is an element, then recurse into each
child that is an element and not a `SCRIPT`/`STYLE`.  A text node is not
processed and has no child nodes. -/
def walkDOM : HtmlNode → TransState → TransState
  | .text _, st => st
  | .element t cs, st => walkChildren cs (processElement (.element t cs) st)

/-- The `childNodes.forEach` loop of `walkDOM`. -/
def walkChildren : List HtmlNode → TransState → TransState
  | [], st => st
  | c :: rest, st =>
    walkChildren rest
      (if isElem c && !(tagOf c == "SCRIPT" || tagOf c == "STYLE") then walkDOM c st else st)

end

/-- `htmlToGoogleDocsStructure`: walk the parsed body with an empty request
list and the cursor at index 1, and return the requests. -/
def htmlToGoogleDocsStructure (body : HtmlNode) : List Request :=
  (walkDOM body { requests := [], currentIndex := 1 }).requests

/-! ## The batch conversion loop

Model of the per-file loop of the `/api/convert` handler in the
multi-route server.  Remote calls are external collaborators; their
outcomes are supplied as per-file oracles: `fetchError` models
`docs.documents.get` throwing, `submitError` models any of the remote
submit steps (create, batchUpdate, move, export) throwing. -/

/-- A per-file entry pushed onto `convertedFiles`. -/
inductive Outcome where
  | converted (originalFileName convertedFileName : String)
  | failed (originalFileName : String) (error : String)
deriving DecidableEq, Repr

/-- A candidate document together with the outcome of its remote calls. -/
structure FileSpec where
  name : String
  content : String
  fetchError : Option String
  submitError : Option String

/-- One iteration of the loop body: a fetch failure is caught and recorded;
otherwise the content is classified, non-markdown files are silently
skipped (nothing is pushed), and for markdown files a remote failure is
caught and recorded while success records a `converted` entry. -/
def processFile (f : FileSpec) : Option Outcome :=
  match f.fetchError with
  | some e => some (.failed f.name e)
  | none =>
    if isMarkdownContent f.content then
      match f.submitError with
      | some e => some (.failed f.name e)
      | none => some (.converted f.name (f.name ++ ".pdf"))
    else none

/-- The `convertedFiles` list produced by iterating the loop over all
candidate files in listing order. -/
def convertBatchResults (files : List FileSpec) : List Outcome :=
  files.filterMap processFile

/-! ## Spec-side definitions

These definitions follow the specification's words (not the source) and
exist only to be compared against the source-derived definitions. -/

/-- Split into lines at JavaScript line-terminator characters. -/
def splitLines : List Char → List (List Char)
  | [] => [[]]
  | c :: rest =>
    if isLineTerm c then [] :: splitLines rest
    else
      match splitLines rest with
      | l :: ls => (c :: l) :: ls
      | [] => [[c]]

/-- Modelled from the spec: "a line beginning with `#` followed by
whitespace (heading)" — the heading signal anchored at a line start, as
the spec describes it (the source regex is not anchored). -/
def specHeading (s : String) : Bool :=
  (splitLines s.data).any fun l =>
    match l with
    | '#' :: w :: _ => isJsSpace w
    | _ => false

/-- Modelled from the spec: "a line beginning with `-`, `*`, or `+`
followed by whitespace (bullet list)". -/
def specBullet (s : String) : Bool :=
  (splitLines s.data).any fun l =>
    match l with
    | b :: w :: _ => (b == '-' || b == '*' || b == '+') && isJsSpace w
    | _ => false

/-- Modelled from the spec: "a line beginning with a digit sequence then
`.` then whitespace (ordered list)". -/
def specOrdered (s : String) : Bool :=
  (splitLines s.data).any fun l =>
    !(l.takeWhile Char.isDigit).isEmpty &&
      (match l.drop (l.takeWhile Char.isDigit).length with
       | '.' :: w :: _ => isJsSpace w
       | _ => false)

/-- Modelled from the spec: "a fenced block delimited by triple
backticks". -/
def specFenced (s : String) : Bool :=
  anyPos (fun l => tripleTickAt l && anyPos tripleTickAt (l.drop 3)) s.data

/-- Modelled from the spec: "an inline span delimited by single
backticks". -/
def specInline (s : String) : Bool := anyPos inlineAt s.data

/-- Modelled from the spec: "any occurrence of `**`, `*`, `__`, or `_`
(emphasis/strong markers)". -/
def specEmphasis (s : String) : Bool := s.data.contains '*' || s.data.contains '_'

/-- Modelled from the spec: "a bracket-paren link pattern `[...](...)`". -/
def specLink (s : String) : Bool := anyPos linkAt s.data

/-- Modelled from the spec: "a line beginning with `>` followed by
whitespace (blockquote)". -/
def specQuote (s : String) : Bool :=
  (splitLines s.data).any fun l =>
    match l with
    | '>' :: w :: _ => isJsSpace w
    | _ => false

/-- Modelled from the spec: "a line containing a pipe character flanked by
other characters (table row)". -/
def specTable (s : String) : Bool :=
  (splitLines s.data).any fun l =>
    anyPos (fun t =>
      match t with
      | _ :: '|' :: _ :: _ => true
      | _ => false) l

/-- Modelled from the spec: "a line consisting solely of 3+ repeated `-`,
`*`, or `_` (horizontal rule)". -/
def specHr (s : String) : Bool :=
  (splitLines s.data).any fun l => decide (3 ≤ l.length) && l.all isHrChar

/-- The ten spec-worded signals in the order the spec lists them. -/
def specSignalList (s : String) : List Bool :=
  [specHeading s, specBullet s, specOrdered s, specFenced s, specInline s,
   specEmphasis s, specLink s, specQuote s, specTable s, specHr s]

/-- Modelled from the spec: the decision rule of §4.1 — at least two
distinct signal categories, or one of the three important signals
(heading, bullet list, emphasis) — with every signal read exactly as the
spec words it. -/
def specMdCondition (s : String) : Bool :=
  decide (2 ≤ ((specSignalList s).filter id).length) ||
    (specHeading s || specBullet s || specEmphasis s)

/-- Modelled from the spec: the list-handling sentence of §4.2 — per direct
item, one InsertText of the label-prefixed item text plus one list-item
paragraph-style update, skipping whitespace-only texts, the cursor
advancing by text length + 1.  `ordinal` is the 1-based position of the
next item. -/
def specListOps (isUl : Bool) : List String → Nat → Nat → List Request
  | [], _, _ => []
  | t :: rest, ordinal, cursor =>
    let full := (if isUl then "• " else toString ordinal ++ ". ") ++ t
    if isBlank full then specListOps isUl rest (ordinal + 1) cursor
    else
      Request.insertText cursor (full ++ "\n") ::
      Request.updateParagraphStyle cursor (cursor + full.length) listItemStyle ::
      specListOps isUl rest (ordinal + 1) (cursor + full.length + 1)

/-- The cursor position after emitting `specListOps`. -/
def specListIdx (isUl : Bool) : List String → Nat → Nat → Nat
  | [], _, cursor => cursor
  | t :: rest, ordinal, cursor =>
    let full := (if isUl then "• " else toString ordinal ++ ". ") ++ t
    specListIdx isUl rest (ordinal + 1)
      (if isBlank full then cursor else cursor + full.length + 1)

/-! ## Helper lemmas -/

/-- A list of booleans has at least one `true` among its filtered elements
iff some position holds `true`. -/
theorem one_le_filter_iff (l : List Bool) :
    1 ≤ (l.filter id).length ↔ ∃ i, l.getD i false = true := by
  induction l with
  | nil => simp
  | cons b t ih =>
    cases b with
    | false =>
      rw [List.filter_cons_of_neg (by decide), ih]
      constructor
      · rintro ⟨i, hi⟩
        exact ⟨i + 1, by simpa using hi⟩
      · rintro ⟨i, hi⟩
        cases i with
        | zero => simp at hi
        | succ j => exact ⟨j, by simpa using hi⟩
    | true =>
      rw [List.filter_cons_of_pos (by decide)]
      simp only [List.length_cons]
      constructor
      · intro _
        exact ⟨0, by simp⟩
      · intro _
        omega

/-- A list of booleans has at least two `true` entries iff two distinct
positions hold `true`. -/
theorem two_le_filter_iff (l : List Bool) :
    2 ≤ (l.filter id).length ↔
      ∃ i j, i < j ∧ l.getD i false = true ∧ l.getD j false = true := by
  induction l with
  | nil => simp
  | cons b t ih =>
    cases b with
    | false =>
      rw [List.filter_cons_of_neg (by decide), ih]
      constructor
      · rintro ⟨i, j, hij, hi, hj⟩
        exact ⟨i + 1, j + 1, by omega, by simpa using hi, by simpa using hj⟩
      · rintro ⟨i, j, hij, hi, hj⟩
        cases i with
        | zero => simp at hi
        | succ i' =>
          cases j with
          | zero => simp at hj
          | succ j' =>
            exact ⟨i', j', by omega, by simpa using hi, by simpa using hj⟩
    | true =>
      rw [List.filter_cons_of_pos (by decide)]
      simp only [List.length_cons]
      constructor
      · intro h
        have h1 : 1 ≤ (t.filter id).length := by omega
        obtain ⟨k, hk⟩ := (one_le_filter_iff t).mp h1
        exact ⟨0, k + 1, by omega, by simp, by simpa using hk⟩
      · rintro ⟨i, j, hij, hi, hj⟩
        cases j with
        | zero => omega
        | succ j' =>
          have hk : t.getD j' false = true := by simpa using hj
          have h1 : 1 ≤ (t.filter id).length := (one_le_filter_iff t).mpr ⟨j', hk⟩
          omega

/-- A successful `anyPos` exhibits a suffix on which the pattern fires. -/
theorem anyPos_exists {pat : List Char → Bool} {s : List Char}
    (h : anyPos pat s = true) : ∃ t, t <:+ s ∧ pat t = true := by
  simp only [anyPos, List.any_eq_true] at h
  obtain ⟨t, ht, hp⟩ := h
  exact ⟨t, (List.mem_tails t s).mp ht, hp⟩

/-- A successful `afterTermPos` exhibits a suffix on which the pattern
fires. -/
theorem afterTermPos_exists {pat : List Char → Bool} :
    ∀ {s : List Char}, afterTermPos pat s = true → ∃ t, t <:+ s ∧ pat t = true := by
  intro s
  induction s with
  | nil => intro h; simp [afterTermPos] at h
  | cons c rest ih =>
    intro h
    rw [afterTermPos, Bool.or_eq_true, Bool.and_eq_true] at h
    rcases h with ⟨-, hp⟩ | h
    · exact ⟨rest, ⟨[c], rfl⟩, hp⟩
    · obtain ⟨t, hsuf, hp⟩ := ih h
      exact ⟨t, hsuf.trans (List.suffix_cons c rest), hp⟩

/-- A successful `anyLineStart` exhibits a suffix on which the pattern
fires. -/
theorem anyLineStart_exists {pat : List Char → Bool} {s : List Char}
    (h : anyLineStart pat s = true) : ∃ t, t <:+ s ∧ pat t = true := by
  rw [anyLineStart, Bool.or_eq_true] at h
  rcases h with h | h
  · exact ⟨s, List.suffix_rfl, h⟩
  · exact afterTermPos_exists h

/-- Membership in `takeWhile` gives membership in the list together with
the predicate. -/
theorem mem_of_mem_takeWhile {p : α → Bool} :
    ∀ {l : List α} {a : α}, a ∈ l.takeWhile p → a ∈ l ∧ p a = true := by
  intro l
  induction l with
  | nil => intro a h; simp [List.takeWhile] at h
  | cons x xs ih =>
    intro a h
    rw [List.takeWhile_cons] at h
    by_cases hp : p x = true
    · rw [if_pos hp] at h
      rcases List.mem_cons.mp h with rfl | h2
      · exact ⟨List.mem_cons_self _ _, hp⟩
      · obtain ⟨h3, h4⟩ := ih h2
        exact ⟨List.mem_cons_of_mem _ h3, h4⟩
    · rw [if_neg hp] at h
      simp at h

/-- A successful `headAt` match contains a non-whitespace character. -/
theorem headAt_nonspace {t : List Char} (h : headAt t = true) :
    ∃ c ∈ t, isJsSpace c = false := by
  unfold headAt at h
  split at h
  · exact ⟨'#', by simp, by decide⟩
  · simp at h

/-- A successful `bulletAt` match contains a non-whitespace character. -/
theorem bulletAt_nonspace {t : List Char} (h : bulletAt t = true) :
    ∃ c ∈ t, isJsSpace c = false := by
  unfold bulletAt at h
  split at h
  · rename_i b w d rest
    simp only [Bool.and_eq_true, Bool.or_eq_true, beq_iff_eq] at h
    obtain ⟨hb, -⟩ := h
    rcases hb with (rfl | rfl) | rfl
    · exact ⟨'-', by simp, by decide⟩
    · exact ⟨'*', by simp, by decide⟩
    · exact ⟨'+', by simp, by decide⟩
  · simp at h

/-- A successful `numberedAt` match contains a non-whitespace character. -/
theorem numberedAt_nonspace {t : List Char} (h : numberedAt t = true) :
    ∃ c ∈ t, isJsSpace c = false := by
  unfold numberedAt at h
  rw [Bool.and_eq_true] at h
  obtain ⟨-, h⟩ := h
  split at h
  · rename_i heq
    have hdot : '.' ∈ t.drop (t.takeWhile Char.isDigit).length := by
      rw [heq]
      simp
    exact ⟨'.', List.drop_subset _ _ hdot, by decide⟩
  · simp at h

/-- A successful `tripleTickAt` match contains a non-whitespace
character. -/
theorem tripleTickAt_nonspace {t : List Char} (h : tripleTickAt t = true) :
    ∃ c ∈ t, isJsSpace c = false := by
  unfold tripleTickAt at h
  split at h
  · rename_i a b c rest
    simp only [Bool.and_eq_true, beq_iff_eq] at h
    exact ⟨backtick, by simp [h.1], by decide⟩
  · simp at h

/-- A successful `inlineAt` match contains a non-whitespace character. -/
theorem inlineAt_nonspace {t : List Char} (h : inlineAt t = true) :
    ∃ c ∈ t, isJsSpace c = false := by
  unfold inlineAt at h
  split at h
  · rename_i a c rest
    simp only [Bool.and_eq_true, beq_iff_eq] at h
    exact ⟨backtick, by simp [h.1], by decide⟩
  · simp at h

/-- A successful `linkAt` match contains a non-whitespace character. -/
theorem linkAt_nonspace {t : List Char} (h : linkAt t = true) :
    ∃ c ∈ t, isJsSpace c = false := by
  unfold linkAt at h
  split at h
  · exact ⟨'[', by simp, by decide⟩
  · simp at h

/-- A successful `quoteAt` match contains a non-whitespace character. -/
theorem quoteAt_nonspace {t : List Char} (h : quoteAt t = true) :
    ∃ c ∈ t, isJsSpace c = false := by
  unfold quoteAt at h
  split at h
  · exact ⟨'>', by simp, by decide⟩
  · simp at h

/-- A successful `tableAt` match contains a non-whitespace character. -/
theorem tableAt_nonspace {t : List Char} (h : tableAt t = true) :
    ∃ c ∈ t, isJsSpace c = false := by
  unfold tableAt at h
  split at h
  · exact ⟨'|', by simp, by decide⟩
  · simp at h

/-- A successful `hrAt` match contains a non-whitespace character. -/
theorem hrAt_nonspace {t : List Char} (h : hrAt t = true) :
    ∃ c ∈ t, isJsSpace c = false := by
  unfold hrAt at h
  rw [Bool.and_eq_true, decide_eq_true_iff] at h
  obtain ⟨hlen, -⟩ := h
  have hne : t.takeWhile isHrChar ≠ [] := by
    intro hnil
    rw [hnil] at hlen
    simp at hlen
  obtain ⟨c, hc⟩ := List.exists_mem_of_ne_nil _ hne
  obtain ⟨hmem, hhr⟩ := mem_of_mem_takeWhile hc
  refine ⟨c, hmem, ?_⟩
  simp only [isHrChar, Bool.or_eq_true, beq_iff_eq] at hhr
  rcases hhr with (rfl | rfl) | rfl <;> decide

/-- On all-whitespace text every one of the ten signals is `false`. -/
theorem signals_space {s : String} (h : s.data.all isJsSpace = true) :
    headersMatch s = false ∧ listsMatch s = false ∧ numberedListsMatch s = false ∧
    codeBlocksMatch s = false ∧ inlineCodeMatch s = false ∧ emphasisMatch s = false ∧
    linksMatch s = false ∧ blockquotesMatch s = false ∧ tablesMatch s = false ∧
    horizontalRulesMatch s = false := by
  have hall : ∀ c ∈ s.data, isJsSpace c = true := List.all_eq_true.mp h
  have contr : ∀ {t : List Char}, t <:+ s.data → (∃ c ∈ t, isJsSpace c = false) → False := by
    rintro t hsuf ⟨c, hmem, hns⟩
    rw [hall c (hsuf.subset hmem)] at hns
    exact absurd hns (by decide)
  refine ⟨?_, ?_, ?_, ?_, ?_, ?_, ?_, ?_, ?_, ?_⟩
  · cases hc : headersMatch s with
    | false => rfl
    | true =>
      obtain ⟨t, hsuf, hp⟩ := anyPos_exists hc
      exact (contr hsuf (headAt_nonspace hp)).elim
  · cases hc : listsMatch s with
    | false => rfl
    | true =>
      obtain ⟨t, hsuf, hp⟩ := anyLineStart_exists hc
      exact (contr hsuf (bulletAt_nonspace hp)).elim
  · cases hc : numberedListsMatch s with
    | false => rfl
    | true =>
      obtain ⟨t, hsuf, hp⟩ := anyLineStart_exists hc
      exact (contr hsuf (numberedAt_nonspace hp)).elim
  · cases hc : codeBlocksMatch s with
    | false => rfl
    | true =>
      obtain ⟨t, hsuf, hp⟩ := anyPos_exists hc
      rw [Bool.and_eq_true] at hp
      exact (contr hsuf (tripleTickAt_nonspace hp.1)).elim
  · cases hc : inlineCodeMatch s with
    | false => rfl
    | true =>
      obtain ⟨t, hsuf, hp⟩ := anyPos_exists hc
      exact (contr hsuf (inlineAt_nonspace hp)).elim
  · cases hc : emphasisMatch s with
    | false => rfl
    | true =>
      rw [emphasisMatch, Bool.or_eq_true] at hc
      rcases hc with hc | hc
      · have := hall '*' (List.mem_of_elem_eq_true hc)
        simp [isJsSpace] at this
      · have := hall '_' (List.mem_of_elem_eq_true hc)
        simp [isJsSpace] at this
  · cases hc : linksMatch s with
    | false => rfl
    | true =>
      obtain ⟨t, hsuf, hp⟩ := anyPos_exists hc
      exact (contr hsuf (linkAt_nonspace hp)).elim
  · cases hc : blockquotesMatch s with
    | false => rfl
    | true =>
      obtain ⟨t, hsuf, hp⟩ := anyLineStart_exists hc
      exact (contr hsuf (quoteAt_nonspace hp)).elim
  · cases hc : tablesMatch s with
    | false => rfl
    | true =>
      obtain ⟨t, hsuf, hp⟩ := anyPos_exists hc
      exact (contr hsuf (tableAt_nonspace hp)).elim
  · cases hc : horizontalRulesMatch s with
    | false => rfl
    | true =>
      obtain ⟨t, hsuf, hp⟩ := anyLineStart_exists hc
      exact (contr hsuf (hrAt_nonspace hp)).elim

/-- The classifier returns `false` whenever all ten signals are `false`. -/
theorem classify_of_no_signal {s : String}
    (h1 : headersMatch s = false) (h2 : listsMatch s = false)
    (h3 : numberedListsMatch s = false) (h4 : codeBlocksMatch s = false)
    (h5 : inlineCodeMatch s = false) (h6 : emphasisMatch s = false)
    (h7 : linksMatch s = false) (h8 : blockquotesMatch s = false)
    (h9 : tablesMatch s = false) (h10 : horizontalRulesMatch s = false) :
    isMarkdownContent s = false := by
  simp [isMarkdownContent, matchedCount, signalList, hasImportant, List.filter,
    h1, h2, h3, h4, h5, h6, h7, h8, h9, h10]

/-- `addText` never decreases the cursor. -/
theorem addText_mono (st : TransState) (text : String) (style : Option PStyle) :
    st.currentIndex ≤ (addText st text style).currentIndex := by
  unfold addText
  split
  · exact le_refl _
  · simp only []
    omega

/-- `processItems` never decreases the cursor. -/
theorem processItems_mono (isUl : Bool) :
    ∀ (items : List HtmlNode) (k : Nat) (st : TransState),
      st.currentIndex ≤ (processItems isUl items k st).currentIndex := by
  intro items
  induction items with
  | nil => intro k st; exact le_refl _
  | cons li rest ih =>
    intro k st
    rw [processItems]
    exact le_trans (addText_mono ..) (ih ..)

/-- `processElement` never decreases the cursor. -/
theorem processElement_mono (el : HtmlNode) (st : TransState) :
    st.currentIndex ≤ (processElement el st).currentIndex := by
  unfold processElement
  cases el with
  | text _ => exact le_refl _
  | element tag cs =>
    dsimp only
    split
    · exact addText_mono ..
    split
    · exact addText_mono ..
    split
    · exact addText_mono ..
    split
    · exact addText_mono ..
    split
    · exact processItems_mono ..
    split
    · exact addText_mono ..
    exact le_refl _

mutual

/-- `walkDOM` never decreases the cursor. -/
theorem walkDOM_mono : ∀ (node : HtmlNode) (st : TransState),
    st.currentIndex ≤ (walkDOM node st).currentIndex
  | .text _, st => le_refl _
  | .element t cs, st => by
    rw [walkDOM]
    exact le_trans (processElement_mono (.element t cs) st) (walkChildren_mono cs _)

/-- `walkChildren` never decreases the cursor. -/
theorem walkChildren_mono : ∀ (cs : List HtmlNode) (st : TransState),
    st.currentIndex ≤ (walkChildren cs st).currentIndex
  | [], st => le_refl _
  | c :: rest, st => by
    rw [walkChildren]
    refine le_trans ?_ (walkChildren_mono rest _)
    split
    · exact walkDOM_mono c st
    · exact le_refl _

end

/-- `processItems` appends exactly the operations described by
`specListOps` (one insert plus one list-item style update per non-blank
prefixed item text, at the running cursor), and leaves the cursor at
`specListIdx`. -/
theorem processItems_eq (isUl : Bool) :
    ∀ (items : List HtmlNode) (k : Nat) (st : TransState),
      processItems isUl items k st =
        { requests := st.requests ++
            specListOps isUl (items.map textContent) (k + 1) st.currentIndex,
          currentIndex :=
            specListIdx isUl (items.map textContent) (k + 1) st.currentIndex } := by
  intro items
  induction items with
  | nil =>
    intro k st
    simp [processItems, specListOps, specListIdx]
  | cons li rest ih =>
    intro k st
    rw [processItems, List.map_cons, specListOps, specListIdx]
    by_cases hb :
        isBlank ((if isUl then "• " else toString (k + 1) ++ ". ") ++ textContent li) = true
    · rw [if_pos hb]
      have haddeq :
          addText st ((if isUl then "• " else toString (k + 1) ++ ". ") ++ textContent li)
            (some listItemStyle) = st := by
        unfold addText
        rw [if_pos hb]
      rw [haddeq, ih, if_pos hb]
    · rw [if_neg hb]
      have haddeq :
          addText st ((if isUl then "• " else toString (k + 1) ++ ". ") ++ textContent li)
            (some listItemStyle) =
          { requests := st.requests ++
              [Request.insertText st.currentIndex
                 (((if isUl then "• " else toString (k + 1) ++ ". ") ++ textContent li) ++ "\n"),
               Request.updateParagraphStyle st.currentIndex
                 (st.currentIndex +
                   ((if isUl then "• " else toString (k + 1) ++ ". ") ++ textContent li).length)
                 listItemStyle],
            currentIndex := st.currentIndex +
              ((if isUl then "• " else toString (k + 1) ++ ". ") ++ textContent li).length + 1 } := by
        unfold addText
        rw [if_neg hb]
        simp
      rw [haddeq, ih]
      simp
      rw [if_neg hb]

/-! ## Claim theorems -/

/-- C1 (counterexample): the classifier, run on `"word # word"`, returns
`true`, although under the spec's signal definitions — in particular a
heading signal that fires only when a line *begins* with `#` followed by
whitespace — no signal category matches this text at all, so the claimed
biconditional demands `false`.  The source `headers` regex `/#\s.+/m` is
not anchored and fires mid-line. -/
theorem c1_counterexample :
    isMarkdownContent "word # word" = true ∧ specMdCondition "word # word" = false := by
  constructor <;> decide

/-- C1 (amended): `classify(text)` returns `true` iff at least two distinct
signal categories match or one of the three important signals (headers,
unordered list, emphasis) matches, where the signals are the ones the code
implements — in particular the heading signal fires when `#` followed by
whitespace followed by a non-newline character occurs *anywhere* in the
text, not only at a line start. -/
theorem c1_amended_decision_rule (s : String) :
    isMarkdownContent s = true ↔
      ((∃ i j, i < j ∧ (signalList s).getD i false = true ∧
          (signalList s).getD j false = true) ∨
        hasImportant s = true) := by
  rw [isMarkdownContent, Bool.or_eq_true, decide_eq_true_iff]
  unfold matchedCount
  rw [two_le_filter_iff]

/-- C2: transform() on `<h1>Title</h1><p>Body</p>` emits exactly four
operations in order — InsertText("Title\n") at cursor 1, a HEADING_1
paragraph-style update over [1,6), InsertText("Body\n") at cursor 7, and a
normal-paragraph style update over [7,11) — and the cursor finishes at 12,
having advanced by text length + 1 after each element. -/
theorem c2_h1_p_transform :
    htmlToGoogleDocsStructure
        (.element "BODY" [.element "H1" [.text "Title"], .element "P" [.text "Body"]]) =
      [Request.insertText 1 "Title\n",
       Request.updateParagraphStyle 1 6 h1Style,
       Request.insertText 7 "Body\n",
       Request.updateParagraphStyle 7 11 normalPStyle] ∧
    (walkDOM (.element "BODY" [.element "H1" [.text "Title"], .element "P" [.text "Body"]])
        { requests := [], currentIndex := 1 }).currentIndex = 12 := by
  constructor <;> decide

/-- C3 (counterexample): an `OL` whose single `LI` item has empty text
content still emits an InsertText of the label line `"1. \n"` plus a style
update and advances the cursor from 1 to 5 — the list branch prepends the
ordinal label *before* the blank check in `addText`, so the claim's clause
that an element with empty/whitespace-only text content emits no
operations and leaves the cursor unchanged is false. -/
theorem c3_counterexample :
    textContent (.element "LI" ([] : List HtmlNode)) = "" ∧
    htmlToGoogleDocsStructure (.element "BODY" [.element "OL" [.element "LI" []]]) =
      [Request.insertText 1 "1. \n", Request.updateParagraphStyle 1 4 listItemStyle] ∧
    (walkDOM (.element "BODY" [.element "OL" [.element "LI" []]])
        { requests := [], currentIndex := 1 }).currentIndex = 5 := by
  refine ⟨by decide, by decide, by decide⟩

/-- C3 (amended): the transformer's cursor starts at 1 and is never
decremented during the walk; a blank text passed to `addText` emits
nothing and leaves the state unchanged; a non-blank text emits an
InsertText at the current cursor and a paragraph-style update over the
half-open range computed from the cursor before the insertion advanced it,
after which the cursor advances by the text's length plus 1; a directly
handled element (H1/H2/P/PRE/BLOCKQUOTE) with blank text content therefore
emits nothing and leaves the cursor unchanged — but a list item's text has
the bullet glyph or ordinal label prepended before the blank check, and
such labels are never whitespace-only, so a list item emits its label line
even when its own text content is blank. -/
theorem c3_amended_cursor_invariants :
    (∀ body : HtmlNode,
        htmlToGoogleDocsStructure body =
          (walkDOM body { requests := [], currentIndex := 1 }).requests) ∧
    (∀ (node : HtmlNode) (st : TransState),
        st.currentIndex ≤ (walkDOM node st).currentIndex) ∧
    (∀ (text : String) (style : Option PStyle) (st : TransState),
        isBlank text = true → addText st text style = st) ∧
    (∀ (text : String) (ps : PStyle) (st : TransState), isBlank text = false →
        addText st text (some ps) =
          { requests := st.requests ++
              [Request.insertText st.currentIndex (text ++ "\n"),
               Request.updateParagraphStyle st.currentIndex
                 (st.currentIndex + text.length) ps],
            currentIndex := st.currentIndex + text.length + 1 }) ∧
    (∀ (tag : String) (cs : List HtmlNode) (st : TransState),
        tag ∈ (["H1", "H2", "P", "PRE", "BLOCKQUOTE"] : List String) →
        isBlank (textContentList cs) = true →
        processElement (.element tag cs) st = st) ∧
    (∀ t : String, isBlank ("• " ++ t) = false) ∧
    (∀ (k : Nat) (t : String), isBlank (toString (k + 1) ++ ". " ++ t) = false) := by
  refine ⟨fun _ => rfl, walkDOM_mono, ?_, ?_, ?_, ?_, ?_⟩
  · intro text style st h
    unfold addText
    rw [if_pos h]
  · intro text ps st h
    unfold addText
    rw [if_neg (by simp [h])]
    simp
  · intro tag cs st htag hblank
    have hadd : ∀ sty, addText st (textContentList cs) sty = st := fun sty => by
      unfold addText
      rw [if_pos hblank]
    simp only [List.mem_cons, List.not_mem_nil, or_false] at htag
    rcases htag with rfl | rfl | rfl | rfl | rfl
    · exact hadd (some h1Style)
    · exact hadd (some h2Style)
    · exact hadd (some normalPStyle)
    · exact hadd (some preStyle)
    · exact hadd (some blockquoteStyle)
  · intro t
    cases hb : isBlank ("• " ++ t) with
    | false => rfl
    | true =>
      exfalso
      unfold isBlank at hb
      have hmem : '•' ∈ ("• " ++ t).data := by
        have hdata : ("• " ++ t).data = "• ".data ++ t.data := rfl
        rw [hdata]
        exact List.mem_append_left _ (by decide)
      have := List.all_eq_true.mp hb '•' hmem
      exact absurd this (by decide)
  · intro k t
    cases hb : isBlank (toString (k + 1) ++ ". " ++ t) with
    | false => rfl
    | true =>
      exfalso
      unfold isBlank at hb
      have hmem : '.' ∈ (toString (k + 1) ++ ". " ++ t).data := by
        have hdata : (toString (k + 1) ++ ". " ++ t).data =
            (toString (k + 1)).data ++ ". ".data ++ t.data := rfl
        rw [hdata]
        exact List.mem_append_left _ (List.mem_append_right _ (by decide))
      have := List.all_eq_true.mp hb '.' hmem
      exact absurd this (by decide)

/-- Witness for C3 (amended): concrete instances discharging the
hypotheses — a blank text leaves the state unchanged, a non-blank one
emits the two operations and advances the cursor, and a `P` element with
whitespace-only text content emits nothing. -/
theorem c3_amended_cursor_invariants_witness :
    (isBlank " " = true ∧
      addText { requests := [], currentIndex := 1 } " " none =
        { requests := [], currentIndex := 1 }) ∧
    (isBlank "A" = false ∧
      addText { requests := [], currentIndex := 1 } "A" (some h1Style) =
        { requests := [Request.insertText 1 "A\n", Request.updateParagraphStyle 1 2 h1Style],
          currentIndex := 3 }) ∧
    ("P" ∈ (["H1", "H2", "P", "PRE", "BLOCKQUOTE"] : List String) ∧
      isBlank (textContentList [HtmlNode.text "  "]) = true ∧
      processElement (.element "P" [.text "  "]) { requests := [], currentIndex := 1 } =
        { requests := [], currentIndex := 1 }) :=
  ⟨⟨by decide,
    c3_amended_cursor_invariants.2.2.1 " " none { requests := [], currentIndex := 1 } (by decide)⟩,
   ⟨by decide, by
    rw [c3_amended_cursor_invariants.2.2.2.1 "A" h1Style { requests := [], currentIndex := 1 }
      (by decide)]
    decide⟩,
   ⟨by decide, by decide,
    c3_amended_cursor_invariants.2.2.2.2.1 "P" [.text "  "]
      { requests := [], currentIndex := 1 } (by decide) (by decide)⟩⟩

/-- C4 (counterexample): transform() on a body whose only element has the
unrecognized tag `DIV` with text "Hello" emits no operation at all — the
switch in `processElement` has no default case — refuting the claim that
unrecognized tags still emit their text as a plain paragraph. -/
theorem c4_counterexample :
    htmlToGoogleDocsStructure (.element "BODY" [.element "DIV" [.text "Hello"]]) = [] := by
  decide

/-- C4 (amended): for every visited element whose tag name is not one of
the recognized tags (H1, H2, P, PRE, UL, OL, BLOCKQUOTE), `processElement`
emits nothing and leaves the state unchanged; only the element's children
are still visited by the walk. -/
theorem c4_amended_unrecognized_tag (tag : String) (cs : List HtmlNode) (st : TransState)
    (h : tag ∉ (["H1", "H2", "P", "PRE", "UL", "OL", "BLOCKQUOTE"] : List String)) :
    processElement (.element tag cs) st = st := by
  simp only [List.mem_cons, List.not_mem_nil, or_false, not_or] at h
  obtain ⟨h1, h2, h3, h4, h5, h6, h7⟩ := h
  unfold processElement
  dsimp only
  rw [if_neg (by simp [h1]), if_neg (by simp [h2]), if_neg (by simp [h3]),
      if_neg (by simp [h4]), if_neg (by simp [h5, h6]), if_neg (by simp [h7])]

/-- Witness for C4 (amended): the `DIV` tag is unrecognized and emits
nothing. -/
theorem c4_amended_unrecognized_tag_witness :
    ("DIV" ∉ (["H1", "H2", "P", "PRE", "UL", "OL", "BLOCKQUOTE"] : List String)) ∧
    processElement (.element "DIV" [.text "Hello"]) { requests := [], currentIndex := 1 } =
      { requests := [], currentIndex := 1 } :=
  ⟨by decide,
   c4_amended_unrecognized_tag "DIV" [.text "Hello"] { requests := [], currentIndex := 1 }
     (by decide)⟩

/-- C5: for every list container (`UL`/`OL`) the transformer emits nothing
for the container itself and, for each direct element child in order, one
InsertText of the item's text prefixed by the bullet glyph (`UL`) or its
1-based ordinal plus `. ` (`OL`) together with one indented list-item
paragraph-style update (`specListOps` describes exactly these per-item
operation pairs); in particular `<ul><li>A</li><li>B</li></ul>` yields
exactly the two bullet-prefixed InsertTexts "• A\n" and "• B\n" with their
style updates. -/
theorem c5_list_handling :
    (∀ (cs : List HtmlNode) (st : TransState),
        processElement (.element "UL" cs) st =
          { requests := st.requests ++
              specListOps true ((cs.filter isElem).map textContent) 1 st.currentIndex,
            currentIndex :=
              specListIdx true ((cs.filter isElem).map textContent) 1 st.currentIndex }) ∧
    (∀ (cs : List HtmlNode) (st : TransState),
        processElement (.element "OL" cs) st =
          { requests := st.requests ++
              specListOps false ((cs.filter isElem).map textContent) 1 st.currentIndex,
            currentIndex :=
              specListIdx false ((cs.filter isElem).map textContent) 1 st.currentIndex }) ∧
    htmlToGoogleDocsStructure
        (.element "BODY"
          [.element "UL" [.element "LI" [.text "A"], .element "LI" [.text "B"]]]) =
      [Request.insertText 1 "• A\n", Request.updateParagraphStyle 1 4 listItemStyle,
       Request.insertText 5 "• B\n", Request.updateParagraphStyle 5 8 listItemStyle] := by
  refine ⟨?_, ?_, by decide⟩
  · intro cs st
    have heq : processElement (.element "UL" cs) st = processItems true (cs.filter isElem) 0 st :=
      rfl
    rw [heq, processItems_eq]
  · intro cs st
    have heq : processElement (.element "OL" cs) st = processItems false (cs.filter isElem) 0 st :=
      rfl
    rw [heq, processItems_eq]

/-- C6 (counterexample): a batch of two candidates where the first is not
markdown-like and the second is markdown-like but fails at the remote
submit step produces a results list of length 1 — the non-markdown file
produces *no* entry at all (there is no `Skipped` record in the code) — not
a list of length N = 2 with a `Skipped` entry. -/
theorem c6_counterexample :
    convertBatchResults
        [{ name := "a", content := "plain text", fetchError := none, submitError := none },
         { name := "b", content := "# Title here", fetchError := none,
           submitError := some "boom" }] =
      [Outcome.failed "b" "boom"] ∧
    (convertBatchResults
        [{ name := "a", content := "plain text", fetchError := none, submitError := none },
         { name := "b", content := "# Title here", fetchError := none,
           submitError := some "boom" }]).length ≠ 2 := by
  constructor
  · decide
  · decide

/-- C6 (amended): the batch loop processes files independently and in
order (the results of a concatenation are the concatenation of the
results, so one file's failure never stops later files); a markdown-like
file whose remote submit fails contributes exactly one `Failed` entry
carrying the error message; a file classified as non-markdown contributes
*no* entry; a markdown-like file whose remote calls succeed contributes
one `Converted` entry. -/
theorem c6_amended_batch_outcomes :
    (∀ xs ys : List FileSpec,
        convertBatchResults (xs ++ ys) = convertBatchResults xs ++ convertBatchResults ys) ∧
    (∀ (f : FileSpec) (e : String), f.fetchError = none → isMarkdownContent f.content = true →
        f.submitError = some e → convertBatchResults [f] = [Outcome.failed f.name e]) ∧
    (∀ f : FileSpec, f.fetchError = none → isMarkdownContent f.content = false →
        convertBatchResults [f] = []) ∧
    (∀ f : FileSpec, f.fetchError = none → isMarkdownContent f.content = true →
        f.submitError = none →
        convertBatchResults [f] = [Outcome.converted f.name (f.name ++ ".pdf")]) := by
  refine ⟨fun xs ys => List.filterMap_append .., ?_, ?_, ?_⟩
  · intro f e hf hm hs
    simp [convertBatchResults, processFile, hf, hm, hs]
  · intro f hf hm
    simp [convertBatchResults, processFile, hf, hm]
  · intro f hf hm hs
    simp [convertBatchResults, processFile, hf, hm, hs]

/-- Witness for C6 (amended): the skip case and the failed case at
concrete files. -/
theorem c6_amended_batch_outcomes_witness :
    (isMarkdownContent "plain text" = false ∧
      convertBatchResults
          [{ name := "a", content := "plain text", fetchError := none, submitError := none }] =
        []) ∧
    (isMarkdownContent "# Title here" = true ∧
      convertBatchResults
          [{ name := "b", content := "# Title here", fetchError := none,
             submitError := some "boom" }] =
        [Outcome.failed "b" "boom"]) :=
  ⟨⟨by decide, c6_amended_batch_outcomes.2.2.1 _ rfl (by decide)⟩,
   ⟨by decide, c6_amended_batch_outcomes.2.1 _ "boom" rfl (by decide) rfl⟩⟩

/-- C7 (counterexample): `"a|b|c"` matches exactly one signal category
(tables), yet the classifier returns `false` — refuting the claim that it
returns `false` only when the text matches zero categories. -/
theorem c7_counterexample :
    isMarkdownContent "a|b|c" = false ∧ tablesMatch "a|b|c" = true ∧
    matchedCount "a|b|c" = 1 := by
  refine ⟨by decide, by decide, by decide⟩

/-- C7 (amended): the classifier returns `false` exactly when fewer than
two signal categories match and none of the three important signals
(headers, unordered list, emphasis) matches — so a text matching a single
non-important category is rejected. -/
theorem c7_amended_false_condition (s : String) :
    isMarkdownContent s = false ↔ (matchedCount s < 2 ∧ hasImportant s = false) := by
  rw [isMarkdownContent, Bool.or_eq_false_iff, decide_eq_false_iff_not, Nat.not_le]

/-- C8: for every text that matches exactly one signal category which is
not one of the three important signals (equivalently, `hasImportant` is
`false`), the classifier returns `false`. -/
theorem c8_single_nonimportant_signal (s : String)
    (hcount : matchedCount s = 1) (himp : hasImportant s = false) :
    isMarkdownContent s = false := by
  rw [isMarkdownContent, himp, hcount]
  decide

/-- Witness for C8: `"x|y|z"` matches only the tables signal and is
classified as non-markdown. -/
theorem c8_single_nonimportant_signal_witness :
    matchedCount "x|y|z" = 1 ∧ hasImportant "x|y|z" = false ∧
    isMarkdownContent "x|y|z" = false :=
  ⟨by decide, by decide, c8_single_nonimportant_signal "x|y|z" (by decide) (by decide)⟩

/-- C9: when none of the ten signal patterns matches, the classifier
returns `false`; in particular it returns `false` on the empty string and
on every all-whitespace string (on which no pattern can match). -/
theorem c9_zero_signals_false :
    (∀ s : String, headersMatch s = false → listsMatch s = false →
        numberedListsMatch s = false → codeBlocksMatch s = false →
        inlineCodeMatch s = false → emphasisMatch s = false → linksMatch s = false →
        blockquotesMatch s = false → tablesMatch s = false →
        horizontalRulesMatch s = false → isMarkdownContent s = false) ∧
    isMarkdownContent "" = false ∧
    (∀ s : String, s.data.all isJsSpace = true → isMarkdownContent s = false) := by
  refine ⟨fun s h1 h2 h3 h4 h5 h6 h7 h8 h9 h10 =>
      classify_of_no_signal h1 h2 h3 h4 h5 h6 h7 h8 h9 h10, by decide, ?_⟩
  intro s hs
  obtain ⟨h1, h2, h3, h4, h5, h6, h7, h8, h9, h10⟩ := signals_space hs
  exact classify_of_no_signal h1 h2 h3 h4 h5 h6 h7 h8 h9 h10

/-- Witness for C9: a whitespace-only string and a plain sentence with no
matching signal are both rejected. -/
theorem c9_zero_signals_false_witness :
    (" \t".data.all isJsSpace = true ∧ isMarkdownContent " \t" = false) ∧
    (headersMatch "hello world" = false ∧ isMarkdownContent "hello world" = false) :=
  ⟨⟨by decide, c9_zero_signals_false.2.2 " \t" (by decide)⟩,
   ⟨by decide,
    c9_zero_signals_false.1 "hello world" (by decide) (by decide) (by decide) (by decide)
      (by decide) (by decide) (by decide) (by decide) (by decide) (by decide)⟩⟩

/-- C10: a handled element nested inside another handled element has its
text emitted twice — once in the outer element's aggregated `textContent`
and once when the walk visits the inner element (`<blockquote><p>Hi</p>
</blockquote>` emits "Hi\n" at cursor 1 with blockquote styling and again
at cursor 4 with normal-paragraph styling) — and only `SCRIPT`/`STYLE`
subtrees are excluded from the walk. -/
theorem c10_nested_double_emission :
    htmlToGoogleDocsStructure
        (.element "BODY" [.element "BLOCKQUOTE" [.element "P" [.text "Hi"]]]) =
      [Request.insertText 1 "Hi\n", Request.updateParagraphStyle 1 3 blockquoteStyle,
       Request.insertText 4 "Hi\n", Request.updateParagraphStyle 4 6 normalPStyle] ∧
    htmlToGoogleDocsStructure
        (.element "BODY"
          [.element "P" [.text "x"], .element "SCRIPT" [.element "P" [.text "y"]]]) =
      [Request.insertText 1 "x\n", Request.updateParagraphStyle 1 2 normalPStyle] := by
  constructor <;> decide

end MarkdownToDocx
